import Mathlib

/-!
Verification of the OMAR archive writer (src/omar.c).

The development shallowly embeds the writer: the packed header struct
`omar_hdr`, the `ALIGN_UP` macro as computed in 32-bit unsigned
arithmetic, the `file_push` routine that emits one record, and the
`archive_create` traversal.  Bytes are modelled as `Nat` values, byte
streams as `List Nat`, and the filesystem subtree being archived as the
inductive `FsEntry`.  Machine integers (`uint8_t`, `uint16_t`,
`uint32_t`) are modelled as `Nat` with explicit reductions modulo
`2^8`, `2^16`, `2^32` at the points where the C code stores into the
corresponding fields.
-/

/-- Modulus of a `uint8_t` field. -/
def U8 : Nat := 256

/-- Modulus of a `uint16_t` field. -/
def U16 : Nat := 65536

/-- Modulus of a `uint32_t` field. -/
def U32 : Nat := 4294967296

/-- BLOCK_SIZE from omar.c: the 512-byte alignment unit. -/
def BLOCK_SIZE : Nat := 512

/-- OMAR_DIR from omar.c: bit 0 of the header type field marks a directory. -/
def OMAR_DIR : Nat := 1

/-- The ALIGN_UP macro from omar.c, as evaluated on a `uint32_t` value with
a power-of-two `align`: `((value) + (align)-1) & ~((align)-1)` computed in
32-bit unsigned arithmetic.  The addition wraps modulo 2^32 and the mask
clears the low bits, i.e. divides and re-multiplies by `align`. -/
def ALIGN_UP (value align : Nat) : Nat := (((value + (align - 1)) % U32) / align) * align

/-- Modelled from the spec (section 4.2): the mathematical alignment function
`align_up(n, block) = ((n + block - 1) / block) * block`, in exact (unbounded)
arithmetic.  This is the spec-side definition the claims compare the code
against; the code-side computation is `ALIGN_UP` above. -/
def align_up (n block : Nat) : Nat := ((n + block - 1) / block) * block

/-- The packed `struct omar_hdr` from omar.c.  `magic` is its 4 bytes;
the integer fields hold the values stored by the C code, already reduced
to their field widths. -/
structure omar_hdr where
  magic : List Nat
  type : Nat
  nextptr : Nat
  len : Nat
  namelen : Nat
deriving DecidableEq, Repr

/-- sizeof(struct omar_hdr) for the packed layout: 4 + 2 + 4 + 4 + 1. -/
def HDR_SIZE : Nat := 15

/-- The 4 magic bytes "OMAR". -/
def OMAR_MAGIC : List Nat := [79, 77, 65, 82]

/-- Little-endian encoding of a `uint16_t` value as 2 bytes. -/
def le16 (n : Nat) : List Nat := [n % 256, n / 256 % 256]

/-- Little-endian encoding of a `uint32_t` value as 4 bytes. -/
def le32 (n : Nat) : List Nat := [n % 256, n / 256 % 256, n / 65536 % 256, n / 16777216 % 256]

/-- The byte image of a header, as written by `write(outfd, &hdr, sizeof(hdr))`
on a little-endian host: 4 magic bytes, 2 type bytes, 4 nextptr bytes,
4 len bytes, 1 namelen byte. -/
def serializeHdr (h : omar_hdr) : List Nat :=
  h.magic ++ le16 h.type ++ le32 h.nextptr ++ le32 h.len ++ [h.namelen % 256]

/-- One record as emitted into the archive stream: the header, the name
bytes actually written after it, and the body (content plus padding)
bytes written after the name. -/
structure ARec where
  hdr : omar_hdr
  nameBytes : List Nat
  body : List Nat
deriving DecidableEq, Repr

/-- All bytes of one record, in stream order. -/
def recBytes (r : ARec) : List Nat := serializeHdr r.hdr ++ r.nameBytes ++ r.body

/-- A filesystem subtree as seen by the traversal.  A `file` carries its
leaf name (as bytes) and `some content` when `open` succeeds, `none` when
`open` fails (an unreadable file).  A `dir` carries its leaf name, the
`st_size` the filesystem reports for the directory itself, and its
entries in `readdir` order. -/
inductive FsEntry where
  | file (name : List Nat) (content : Option (List Nat))
  | dir (name : List Nat) (stSize : Nat) (entries : List FsEntry)

/-- The leaf name of an entry. -/
def leafName : FsEntry → List Nat
  | .file n _ => n
  | .dir n _ _ => n

/-- The hidden-entry test `ent->d_name[0] == '.'` from archive_create
(46 is the byte value of the dot character). -/
def is_hidden : List Nat → Bool
  | [] => false
  | b :: _ => b == 46

/-- The header value built by lines 106-109 of omar.c.  `junk` is the
indeterminate value of the never-initialised `hdr.type` stack field:
the code only ORs `OMAR_DIR` into `type` after the header has already
been written, so the written field is whatever was on the stack.
`stSize` is `sb.st_size`; storing it into the `uint32_t` field `hdr.len`
reduces it mod 2^32, and `strlen(name)` stored into the `uint8_t` field
`hdr.namelen` reduces mod 2^8. -/
def mkHdr (junk stSize : Nat) (name : List Nat) : omar_hdr :=
  { magic := OMAR_MAGIC
  , type := junk % U16
  , nextptr := (HDR_SIZE + ALIGN_UP (stSize % U32) BLOCK_SIZE) % U32
  , len := stSize % U32
  , namelen := name.length % U8 }

/-- Result of one `file_push` call: the records it appended to the output
stream (zero or one) and its C return value. -/
structure PushOut where
  recs : List ARec
  ret : Int
deriving DecidableEq, Repr

/-- The `file_push` routine from omar.c applied to one entry.
For an unreadable file, `open` fails and the function returns the
negative descriptor (-1) having written nothing.  Otherwise the header
and `hdr.namelen` bytes of the name are written.  A directory returns 0
immediately after that (the `hdr.type |= OMAR_DIR` on line 115 mutates
only the local copy, after the write).  For a file, `read(infd, buf,
hdr.len)` returns `hdr.len` (the file has `st_size` = full content
length bytes, and `hdr.len` is that length mod 2^32, hence no larger);
when that is 0 the `<= 0` check fires and the function returns -EIO = -5
without writing content or padding.  Otherwise `hdr.len` content bytes
are written, then `BLOCK_SIZE - rem` zero bytes when
`rem = hdr.len & (BLOCK_SIZE-1)` is nonzero. -/
def file_push (junk : Nat) (e : FsEntry) : PushOut :=
  match e with
  | .file _ none => { recs := [], ret := -1 }
  | .file name (some c) =>
      let hdr := mkHdr junk c.length name
      let nameOut := name.take hdr.namelen
      if hdr.len = 0 then
        { recs := [{ hdr := hdr, nameBytes := nameOut, body := [] }], ret := -5 }
      else
        let content := c.take hdr.len
        let rem := hdr.len % BLOCK_SIZE
        let pad := if rem = 0 then [] else List.replicate (BLOCK_SIZE - rem) 0
        { recs := [{ hdr := hdr, nameBytes := nameOut, body := content ++ pad }], ret := 0 }
  | .dir name stSize _ =>
      let hdr := mkHdr junk stSize name
      { recs := [{ hdr := hdr, nameBytes := name.take hdr.namelen, body := [] }], ret := 0 }

mutual

/-- One iteration of the readdir loop in archive_create (lines 173-187):
entries whose name starts with a dot are skipped; a directory entry is
pushed and then recursed into; a regular file entry is pushed.  The
return values of `file_push` and of the recursive `archive_create` call
are discarded, exactly as in the C code. -/
def entry_out (junk : Nat) (e : FsEntry) : List ARec :=
  if is_hidden (leafName e) then []
  else
    match e with
    | .file _ _ => (file_push junk e).recs
    | .dir _ _ entries => (file_push junk e).recs ++ (archive_create junk entries).1

/-- The archive_create traversal from omar.c over a directory listing,
returning the emitted records and the function's return value.  Once
`opendir` has succeeded (directory listings are given in the model), the
loop body never affects the return value: the function returns 0. -/
def archive_create (junk : Nat) (es : List FsEntry) : List ARec × Int :=
  match es with
  | [] => ([], 0)
  | e :: rest =>
      (entry_out junk e ++ (archive_create junk rest).1, (archive_create junk rest).2)

end

/-- The full byte stream of an archive: the bytes of all emitted records
in emission order. -/
def archiveBytes (junk : Nat) (es : List FsEntry) : List Nat :=
  ((archive_create junk es).1.map recBytes).flatten

/-- The record emitted for a 2-byte file named "a", used as a concrete
witness input below. -/
def c4rec : ARec :=
  { hdr := mkHdr 0 2 [97], nameBytes := [97], body := [104, 105] ++ List.replicate 510 0 }

/-- The record emitted for a 1-byte file named "a", used as a concrete
witness input below. -/
def c6rec : ARec :=
  { hdr := mkHdr 0 1 [97], nameBytes := [97], body := [104] ++ List.replicate 511 0 }

set_option maxRecDepth 10000

theorem ALIGN_UP_small (n : Nat) (h : n ≤ U32 - BLOCK_SIZE) :
    ALIGN_UP n BLOCK_SIZE = align_up n BLOCK_SIZE := by
  simp only [ALIGN_UP, align_up, BLOCK_SIZE, U32] at *
  omega

theorem ALIGN_UP_mod (n : Nat) (h : n < U32) :
    ALIGN_UP n BLOCK_SIZE = align_up n BLOCK_SIZE % U32 := by
  simp only [ALIGN_UP, align_up, BLOCK_SIZE, U32] at *
  omega

theorem hdr_nextptr_small (n : Nat) (h : n ≤ U32 - BLOCK_SIZE) :
    HDR_SIZE + align_up n BLOCK_SIZE < U32 := by
  simp only [align_up, BLOCK_SIZE, U32, HDR_SIZE] at *
  omega

theorem align_up_pad (n : Nat) :
    align_up n BLOCK_SIZE =
      n + (if n % BLOCK_SIZE = 0 then 0 else BLOCK_SIZE - n % BLOCK_SIZE) := by
  simp only [align_up, BLOCK_SIZE]
  split <;> omega

theorem file_push_eq_empty (junk : Nat) (name : List Nat) :
    file_push junk (FsEntry.file name (some [])) =
      { recs := [{ hdr := mkHdr junk 0 name, nameBytes := name.take (name.length % U8),
                   body := [] }],
        ret := -5 } := rfl

theorem file_push_eq_nonempty (junk : Nat) (name c : List Nat) (h : c.length < U32)
    (h0 : c.length ≠ 0) :
    file_push junk (FsEntry.file name (some c)) =
      { recs := [{ hdr := mkHdr junk c.length name,
                   nameBytes := name.take (name.length % U8),
                   body := c ++ (if c.length % BLOCK_SIZE = 0 then []
                                 else List.replicate (BLOCK_SIZE - c.length % BLOCK_SIZE) 0) }],
        ret := 0 } := by
  have hlen : c.length % U32 = c.length := Nat.mod_eq_of_lt h
  simp [file_push, mkHdr, hlen, h0, List.take_length]

theorem is_hidden_take (name : List Nat) (k : Nat) (h : is_hidden name = false) :
    is_hidden (name.take k) = false := by
  cases name with
  | nil => simp [is_hidden]
  | cons b t =>
    cases k with
    | zero => simp [is_hidden]
    | succ k => simpa [is_hidden] using h

theorem file_push_nameBytes (junk : Nat) (e : FsEntry) (r : ARec)
    (h : r ∈ (file_push junk e).recs) : ∃ k, r.nameBytes = (leafName e).take k := by
  cases e with
  | file name co =>
    cases co with
    | none => simp [file_push] at h
    | some c =>
      simp only [file_push] at h
      split at h <;> simp at h <;> subst h <;> exact ⟨_, rfl⟩
  | dir name stSize entries =>
    simp only [file_push] at h
    simp at h
    subst h
    exact ⟨_, rfl⟩

mutual

theorem noHidden_entry (junk : Nat) (e : FsEntry) :
    ∀ r ∈ entry_out junk e, is_hidden r.nameBytes = false := by
  intro r hr
  rw [entry_out.eq_def] at hr
  by_cases hh : is_hidden (leafName e) = true
  · simp [hh] at hr
  · rw [Bool.not_eq_true] at hh
    simp only [hh, Bool.false_eq_true, if_false] at hr
    cases e with
    | file name co =>
      obtain ⟨k, hk⟩ := file_push_nameBytes junk (FsEntry.file name co) r hr
      rw [hk]
      exact is_hidden_take _ _ hh
    | dir name stSize entries =>
      rcases List.mem_append.mp hr with hl | hrr
      · obtain ⟨k, hk⟩ := file_push_nameBytes junk (FsEntry.dir name stSize entries) r hl
        rw [hk]
        exact is_hidden_take _ _ hh
      · exact noHidden_list junk entries r hrr

theorem noHidden_list (junk : Nat) (es : List FsEntry) :
    ∀ r ∈ (archive_create junk es).1, is_hidden r.nameBytes = false := by
  intro r hr
  match es with
  | [] => simp [archive_create] at hr
  | e :: rest =>
    rw [archive_create.eq_def] at hr
    rcases List.mem_append.mp hr with hl | hrr
    · exact noHidden_entry junk e r hl
    · exact noHidden_list junk rest r hrr

end

theorem archive_ret_zero (junk : Nat) (es : List FsEntry) : (archive_create junk es).2 = 0 := by
  induction es with
  | nil => rfl
  | cons e rest ih => simp [archive_create, ih]

/-- C1: the claim states that `nextptr` is the byte offset from the start of a
record's header to the start of the next header, so that summing `nextptr`
from the first header lands exactly on end-of-stream for a flat directory of
regular files.  Evaluating the code on a flat directory holding one regular
file named "a" with 1 byte of content: the only record's stored `nextptr` is
527 = sizeof(hdr) + align_up(1,512), but the stream is 528 bytes long,
because the stored value omits the namelen (1) name bytes written between the
header and the content.  The claim therefore fails on the code. -/
theorem C1_nextptr_chain_eval :
    (((archive_create 0 [FsEntry.file [97] (some [104])]).1.map
        (fun r => r.hdr.nextptr)).sum = 527) ∧
    ((archiveBytes 0 [FsEntry.file [97] (some [104])]).length = 528) ∧
    (527 : Nat) ≠ 528 := by
  refine ⟨by decide, by decide, by decide⟩

/-- C2: the claim states that every directory record has bit 0 of the type
field set and every regular-file record has it clear.  In the code,
`hdr.type` is never initialised before the header is written, and
`hdr.type |= OMAR_DIR` executes only after the `write`; the emitted type
field is the indeterminate stack value.  Evaluating at stack value 0 for a
directory gives bit 0 clear, and at stack value 1 for a regular file gives
bit 0 set — both contradicting the claim. -/
theorem C2_type_flag_eval :
    ((file_push 0 (FsEntry.dir [115, 117, 98] 4096 [])).recs.map
        (fun r => r.hdr.type % 2) = [0]) ∧
    ((file_push 1 (FsEntry.file [97] (some [104]))).recs.map
        (fun r => r.hdr.type % 2) = [1]) := by
  refine ⟨by decide, by decide⟩

/-- C5: the claim states that a directory record has len = 0 and no
content or padding after the name.  Evaluating the code on a directory
named "sub" whose filesystem st_size is 4096: the emitted record has
len = 4096 (the directory's st_size, not 0), though indeed an empty body.
The len = 0 half of the claim fails on the code. -/
theorem C5_dir_len_eval :
    ((file_push 0 (FsEntry.dir [115, 117, 98] 4096 [])).recs.map
        (fun r => (r.hdr.len, r.body)) = [(4096, [])]) ∧
    (4096 : Nat) ≠ 0 := by
  refine ⟨by decide, by decide⟩

/-- C7: the claim states that archive_create returns a non-success result
whenever some per-entry operation failed.  In the code the loop discards
the return value of every `file_push` and of every recursive call and
archive_create ends with `return 0`.  Evaluating on a directory holding a
single unreadable file: `file_push` on that file fails with a negative
return, yet archive_create returns 0.  The first conjunct shows the
return value is 0 for every input listing. -/
theorem C7_errors_discarded_eval :
    ((archive_create 0 [FsEntry.file [97] none]).2 = 0) ∧
    ((file_push 0 (FsEntry.file [97] none)).ret < 0) := by
  refine ⟨archive_ret_zero 0 _, by decide⟩

/-- C8: the claim states that an entry whose leaf name is longer than 255
bytes is rejected with a NameTooLong error.  The code has no such error
path: `hdr.namelen = strlen(name)` truncates mod 256 and the record is
emitted with success.  Evaluating on a regular file whose name is 256
bytes of "a": the push succeeds (return 0) and the emitted record has a
wrapped namelen of 0 and zero name bytes. -/
theorem C8_long_name_eval :
    ((file_push 0 (FsEntry.file (List.replicate 256 97) (some [104]))).ret = 0) ∧
    ((file_push 0 (FsEntry.file (List.replicate 256 97) (some [104]))).recs.map
        (fun r => (r.hdr.namelen, r.nameBytes)) = [(0, [])]) := by
  refine ⟨by decide, by decide⟩

/-- C3 (amended): for every regular file whose length L is below 2^32, the
record body (the bytes written after the name and before the next header)
has exactly align_up(L, 512) bytes, its first L bytes are the file content,
the remaining bytes are zero, and the number of padding bytes is 0 when
L mod 512 = 0 and 512 - (L mod 512) otherwise. -/
theorem C3_padding (junk : Nat) (name c : List Nat) (h : c.length < U32) :
    ∃ r, (file_push junk (FsEntry.file name (some c))).recs = [r] ∧
      r.body.length = align_up c.length BLOCK_SIZE ∧
      r.body.take c.length = c ∧
      (∀ b ∈ r.body.drop c.length, b = 0) ∧
      r.body.length - c.length =
        (if c.length % BLOCK_SIZE = 0 then 0 else BLOCK_SIZE - c.length % BLOCK_SIZE) := by
  by_cases h0 : c.length = 0
  · have hc : c = [] := List.length_eq_zero.mp h0
    subst hc
    rw [file_push_eq_empty]
    exact ⟨_, rfl, by simp [align_up, BLOCK_SIZE], by simp, by simp, by simp [BLOCK_SIZE]⟩
  · rw [file_push_eq_nonempty junk name c h h0]
    refine ⟨_, rfl, ?_, ?_, ?_, ?_⟩
    · by_cases hr : c.length % BLOCK_SIZE = 0 <;>
        simp [hr, align_up_pad, List.length_append]
    · exact List.take_left c _
    · intro b hb
      rw [List.drop_left] at hb
      by_cases hr : c.length % BLOCK_SIZE = 0
      · simp [hr] at hb
      · rw [if_neg hr] at hb
        exact List.eq_of_mem_replicate hb
    · by_cases hr : c.length % BLOCK_SIZE = 0 <;> simp [hr, List.length_append]

theorem file_push_eq_wrap (junk : Nat) (name c : List Nat) (h : c.length % U32 = 0) :
    file_push junk (FsEntry.file name (some c)) =
      { recs := [{ hdr := mkHdr junk c.length name, nameBytes := name.take (name.length % U8),
                   body := [] }],
        ret := -5 } := by
  simp [file_push, mkHdr, h]

/-- C3 (counterexample): for a regular file of exactly 2^32 bytes, `hdr.len`
wraps to 0, the `read(...) <= 0` check fires, and the emitted record has an
empty body: 0 bytes are written after the name, not
align_up(2^32, 512) = 2^32 bytes as the claim requires for L = 2^32. -/
theorem C3_counterexample :
    ((file_push 0 (FsEntry.file [97] (some (List.replicate U32 0)))).recs.map
        (fun r => r.body.length) = [0]) ∧
    align_up (List.replicate U32 (0 : Nat)).length BLOCK_SIZE = U32 ∧
    (0 : Nat) ≠ U32 := by
  refine ⟨?_, ?_, by norm_num [U32]⟩
  · rw [file_push_eq_wrap 0 [97] (List.replicate U32 0)
      (by rw [List.length_replicate]; exact Nat.mod_self U32)]
    rfl
  · rw [List.length_replicate]
    norm_num [align_up, BLOCK_SIZE, U32]

/-- C3 (witness): the amended padding theorem applied to a 2-byte file
named "a". -/
theorem C3_witness :
    ([104, 105] : List Nat).length < U32 ∧
    (∃ r, (file_push 0 (FsEntry.file [97] (some [104, 105]))).recs = [r] ∧
      r.body.length = align_up ([104, 105] : List Nat).length BLOCK_SIZE ∧
      r.body.take ([104, 105] : List Nat).length = [104, 105] ∧
      (∀ b ∈ r.body.drop ([104, 105] : List Nat).length, b = 0) ∧
      r.body.length - ([104, 105] : List Nat).length =
        (if ([104, 105] : List Nat).length % BLOCK_SIZE = 0 then 0
         else BLOCK_SIZE - ([104, 105] : List Nat).length % BLOCK_SIZE)) :=
  ⟨by decide, C3_padding 0 [97] [104, 105] (by decide)⟩

theorem mkHdr_nextptr_spec (junk s : Nat) (name : List Nat) :
    (mkHdr junk s name).nextptr =
      (HDR_SIZE + align_up ((mkHdr junk s name).len) BLOCK_SIZE) % U32 ∧
    ((mkHdr junk s name).len ≤ U32 - BLOCK_SIZE →
      (mkHdr junk s name).nextptr = HDR_SIZE + align_up ((mkHdr junk s name).len) BLOCK_SIZE) := by
  have hlt : s % U32 < U32 := Nat.mod_lt _ (by norm_num [U32])
  constructor
  · show (HDR_SIZE + ALIGN_UP (s % U32) BLOCK_SIZE) % U32 =
      (HDR_SIZE + align_up (s % U32) BLOCK_SIZE) % U32
    rw [ALIGN_UP_mod _ hlt]
    simp [Nat.add_mod]
  · intro hle
    have hle2 : s % U32 ≤ U32 - BLOCK_SIZE := hle
    show (HDR_SIZE + ALIGN_UP (s % U32) BLOCK_SIZE) % U32 =
      HDR_SIZE + align_up (s % U32) BLOCK_SIZE
    rw [ALIGN_UP_small _ hle2]
    exact Nat.mod_eq_of_lt (hdr_nextptr_small _ hle2)

/-- C4 (amended): for every record emitted by file_push, the stored nextptr
equals (sizeof(header) + align_up(len, 512)) mod 2^32, where len is the
stored 32-bit payload length; when len is at most 2^32 - 512 (so the sum
fits in 32 bits) it equals sizeof(header) + align_up(len, 512) exactly. -/
theorem C4_nextptr_formula (junk : Nat) (e : FsEntry) (r : ARec)
    (h : r ∈ (file_push junk e).recs) :
    r.hdr.nextptr = (HDR_SIZE + align_up r.hdr.len BLOCK_SIZE) % U32 ∧
    (r.hdr.len ≤ U32 - BLOCK_SIZE →
      r.hdr.nextptr = HDR_SIZE + align_up r.hdr.len BLOCK_SIZE) := by
  cases e with
  | file name co =>
    cases co with
    | none => simp [file_push] at h
    | some c =>
      simp only [file_push] at h
      split at h <;> simp at h <;> subst h <;> exact mkHdr_nextptr_spec junk c.length name
  | dir name stSize entries =>
    simp only [file_push] at h
    simp at h
    subst h
    exact mkHdr_nextptr_spec junk stSize name

/-- C4 (counterexample): a regular file of 2^32 - 1 bytes.  The stored len
is 2^32 - 1, and the stored nextptr is 15: `ALIGN_UP` wraps modulo 2^32,
so the stored value is not sizeof(header) + align_up(len, 512), which is
2^32 + 15. -/
theorem C4_counterexample :
    ((file_push 0 (FsEntry.file [97] (some (List.replicate (U32 - 1) 0)))).recs.map
        (fun r => (r.hdr.len, r.hdr.nextptr)) = [(U32 - 1, 15)]) ∧
    HDR_SIZE + align_up (U32 - 1) BLOCK_SIZE = U32 + 15 ∧
    (15 : Nat) ≠ U32 + 15 := by
  refine ⟨?_, by norm_num [align_up, BLOCK_SIZE, U32, HDR_SIZE], by norm_num [U32]⟩
  have e := file_push_eq_nonempty 0 [97] (List.replicate (U32 - 1) 0)
      (by rw [List.length_replicate]; norm_num [U32])
      (by rw [List.length_replicate]; norm_num [U32])
  rw [e]
  simp only [List.map_cons, List.map_nil, List.length_replicate]
  norm_num [mkHdr, ALIGN_UP, BLOCK_SIZE, U32, HDR_SIZE, U16, U8]

/-- C4 (witness): the amended nextptr theorem applied to the record of a
2-byte file named "a": nextptr = 527 = 15 + 512. -/
theorem C4_witness :
    (c4rec ∈ (file_push 0 (FsEntry.file [97] (some [104, 105]))).recs) ∧
    (c4rec.hdr.nextptr = (HDR_SIZE + align_up c4rec.hdr.len BLOCK_SIZE) % U32 ∧
      (c4rec.hdr.len ≤ U32 - BLOCK_SIZE →
        c4rec.hdr.nextptr = HDR_SIZE + align_up c4rec.hdr.len BLOCK_SIZE)) :=
  ⟨by decide, C4_nextptr_formula 0 (FsEntry.file [97] (some [104, 105])) c4rec (by decide)⟩

/-- C6: no entry whose leaf name begins with a dot is visited or produces a
record: an entry with a hidden leaf name contributes nothing to the stream,
and every record in the output of the traversal carries a non-hidden name,
for every input tree. -/
theorem C6_hidden_filtered (junk : Nat) (e : FsEntry) (es : List FsEntry) :
    (is_hidden (leafName e) = true → entry_out junk e = []) ∧
    (∀ r ∈ (archive_create junk es).1, is_hidden r.nameBytes = false) := by
  constructor
  · intro hh
    rw [entry_out.eq_def, if_pos hh]
  · exact noHidden_list junk es

/-- C6 (witness): the filtering theorem applied to a hidden file ".a" (which
emits nothing) and to the record of a visible 1-byte file "a". -/
theorem C6_witness :
    entry_out 0 (FsEntry.file [46, 97] (some [104])) = [] ∧
    is_hidden c6rec.nameBytes = false := by
  constructor
  · exact (C6_hidden_filtered 0 (FsEntry.file [46, 97] (some [104])) []).1 (by decide)
  · exact (C6_hidden_filtered 0 (FsEntry.file [46, 97] (some [104]))
      [FsEntry.file [97] (some [104])]).2 c6rec (by decide)

/-- C9: emission is pre-order: for a non-hidden directory entry at the head
of a listing, the stream consists of the directory's own record, then the
records of its entire subtree, then the records of its next sibling and the
rest of the listing, in that order. -/
theorem C9_preorder (junk stSize : Nat) (name : List Nat) (cs rest : List FsEntry)
    (h : is_hidden name = false) :
    (archive_create junk (FsEntry.dir name stSize cs :: rest)).1 =
      (file_push junk (FsEntry.dir name stSize cs)).recs ++
        ((archive_create junk cs).1 ++ (archive_create junk rest).1) := by
  rw [archive_create, entry_out.eq_def]
  simp [leafName, h]

/-- C9 (witness): the pre-order theorem applied to a directory "sub" holding
one file "a", followed by a sibling file "b". -/
theorem C9_witness :
    is_hidden [115, 117, 98] = false ∧
    (archive_create 0 (FsEntry.dir [115, 117, 98] 4096 [FsEntry.file [97] (some [104])]
        :: [FsEntry.file [98] (some [105])])).1 =
      (file_push 0 (FsEntry.dir [115, 117, 98] 4096 [FsEntry.file [97] (some [104])])).recs ++
        ((archive_create 0 [FsEntry.file [97] (some [104])]).1 ++
          (archive_create 0 [FsEntry.file [98] (some [105])]).1) :=
  ⟨by decide, C9_preorder 0 4096 [115, 117, 98] [FsEntry.file [97] (some [104])]
      [FsEntry.file [98] (some [105])] (by decide)⟩

/-- C10: for a zero-length regular file, file_push writes the header (with
len = 0) and the name, then returns -EIO = -5 because the zero-byte read is
treated as a failure, writing no content and no padding bytes. -/
theorem C10_zero_len_file (junk : Nat) (name : List Nat) :
    file_push junk (FsEntry.file name (some [])) =
      { recs := [{ hdr := mkHdr junk 0 name, nameBytes := name.take (name.length % U8),
                   body := [] }],
        ret := -5 } ∧
    (mkHdr junk 0 name).len = 0 :=
  ⟨file_push_eq_empty junk name, rfl⟩
